import Mathlib

/-!
# zoneedit-dyndns: a shallow embedding of `main.go`

The program is one linear flow: parse the flags, validate, build the query string, send
one authenticated GET, report. The embedding follows that flow:
* Go strings are byte sequences (`GoString`);
* the package-level `params` table, `init` and the body of `main` are transcribed from
  `main.go`;
* what the program obtains from outside (the parsed command line, the environment, the
  HTTP client) is an explicit `World` argument, and what it does to the outside (exit
  status, the two output streams, the requests handed to the HTTP client) is the
  returned `Outcome`;
* what the HTTP client puts on the network for a request it is handed is outside the
  source and is a separate argument (`networkRequests`).
-/

namespace ZoneEdit

/-! ## Go strings -/

/-- A byte, as in Go's `byte`. -/
abbrev Byte := Fin 256

/-- A Go `string`: an immutable sequence of bytes. -/
abbrev GoString := List Byte

/-- The byte of an ASCII character (used for the character constants of the source). -/
def byteOf (c : Char) : Byte := ⟨c.toNat % 256, Nat.mod_lt _ (by decide)⟩

/-- The Go string of an ASCII string constant of the source. -/
def goString (s : String) : GoString := s.toList.map byteOf

/-! ## `net/url`: query escaping and unescaping

`main` calls `url.QueryEscape` (line 98). The function belongs to Go's standard library
(`net/url`), so its code is not under `src/`; the definitions of this section model it, and
its inverse `url.QueryUnescape`, in query-component mode. -/

/-- Modelled from the spec: `url.QueryEscape` is called by `main` but its code (Go's
`net/url`) is not under `src/`. The spec (§4.3) asks for standard URL query escaping:
unreserved characters pass through, reserved characters are escaped. This is the
test `shouldEscape(c, encodeQueryComponent)` of `net/url`: letters, digits and the
marks `-_.~` are kept, every other byte is escaped. -/
def shouldEscape (c : Byte) : Bool :=
  if (byteOf 'a' ≤ c ∧ c ≤ byteOf 'z') ∨ (byteOf 'A' ≤ c ∧ c ≤ byteOf 'Z')
      ∨ (byteOf '0' ≤ c ∧ c ≤ byteOf '9') then false
  else if c = byteOf '-' ∨ c = byteOf '_' ∨ c = byteOf '.' ∨ c = byteOf '~' then false
  else if c ∈ [byteOf '$', byteOf '&', byteOf '+', byteOf ',', byteOf '/', byteOf ':',
      byteOf ';', byteOf '=', byteOf '?', byteOf '@'] then true
  else true

/-- Modelled from the spec: the digit table `upperhex` of `net/url` (not under `src/`),
the upper-case hexadecimal digits used for `%XX`. -/
def upperhex : GoString := goString "0123456789ABCDEF"

/-- Modelled from the spec: the indexing `upperhex[n]` of `net/url` (not under `src/`),
always used with `n < 16`. -/
def upperhexAt (n : Nat) : Byte := upperhex.getD n 0

/-- Modelled from the spec: one byte of the escaping loop of `net/url`s `escape` in query
mode (not under `src/`): a space becomes `+`, a byte that must be escaped becomes `%`
and two hexadecimal digits (high nibble first), any other byte is copied. -/
def escapeByte (c : Byte) : GoString :=
  if c = byteOf ' ' then [byteOf '+']
  else if shouldEscape c then [byteOf '%', upperhexAt (c.val >>> 4), upperhexAt (c.val &&& 15)]
  else [c]

/-- Modelled from the spec: the first loop of `escape` (not under `src/`) counts the
spaces. -/
def spaceCount (s : GoString) : Nat :=
  s.countP fun c => shouldEscape c && decide (c = byteOf ' ')

/-- Modelled from the spec: the first loop of `escape` (not under `src/`) counts the
bytes that need `%XX`. -/
def hexCount (s : GoString) : Nat :=
  s.countP fun c => shouldEscape c && !decide (c = byteOf ' ')

/-- Modelled from the spec: `url.QueryEscape` (Go's `net/url`, not under `src/`), the
"standard URL query-escaping" of §4.3 with the space written `+`. As in the library:
a string with nothing to escape is returned as it is; with only spaces to replace it is
copied with each space turned into `+`; otherwise every byte is rewritten by
`escapeByte`. -/
def QueryEscape (s : GoString) : GoString :=
  if spaceCount s = 0 ∧ hexCount s = 0 then s
  else if hexCount s = 0 then s.map fun c => if c = byteOf ' ' then byteOf '+' else c
  else s.flatMap escapeByte

/-- Modelled from the spec: `ishex` of `net/url` (not under `src/`). -/
def ishex (c : Byte) : Bool :=
  if byteOf '0' ≤ c ∧ c ≤ byteOf '9' then true
  else if byteOf 'a' ≤ c ∧ c ≤ byteOf 'f' then true
  else if byteOf 'A' ≤ c ∧ c ≤ byteOf 'F' then true
  else false

/-- Modelled from the spec: `unhex` of `net/url` (not under `src/`), the value of a
hexadecimal digit. -/
def unhex (c : Byte) : Nat :=
  if byteOf '0' ≤ c ∧ c ≤ byteOf '9' then c.val - (byteOf '0').val
  else if byteOf 'a' ≤ c ∧ c ≤ byteOf 'f' then c.val - (byteOf 'a').val + 10
  else if byteOf 'A' ≤ c ∧ c ≤ byteOf 'F' then c.val - (byteOf 'A').val + 10
  else 0

/-- Modelled from the spec: the checking loop of `net/url`s `unescape` in query mode (not
under `src/`). It counts the `%` (each must be followed by two hexadecimal digits) and
notes whether a `+` occurs; a malformed `%` is an `EscapeError` carrying at most three
bytes from the offending position. -/
def unescapeScan : GoString → Nat → Bool → Except GoString (Nat × Bool)
  | [], n, hasPlus => .ok (n, hasPlus)
  | c :: rest, n, hasPlus =>
    if c = byteOf '%' then
      match rest with
      | a :: b :: rest2 =>
        if ishex a && ishex b then unescapeScan rest2 (n + 1) hasPlus
        else .error ((c :: rest).take 3)
      | _ => .error ((c :: rest).take 3)
    else if c = byteOf '+' then unescapeScan rest n true
    else unescapeScan rest n hasPlus

/-- Modelled from the spec: the decoding loop of `net/url`s `unescape` in query mode (not
under `src/`): `%XX` becomes the byte `unhex(X)<<4 | unhex(X)`, `+` becomes a space, any
other byte is copied. It runs only on input the checking loop accepted. -/
def unescapeBuild : GoString → GoString
  | [] => []
  | c :: rest =>
    if c = byteOf '%' then
      match rest with
      | a :: b :: rest2 =>
        ⟨((unhex a <<< 4) % 256 ||| unhex b) % 256, Nat.mod_lt _ (by decide)⟩ :: unescapeBuild rest2
      | _ => []
    else if c = byteOf '+' then byteOf ' ' :: unescapeBuild rest
    else c :: unescapeBuild rest

/-- Modelled from the spec: `url.QueryUnescape` (Go's `net/url`, not under `src/`), the
decoding that §4.3 and §8 require to undo the escaping. -/
def QueryUnescape (s : GoString) : Except GoString GoString :=
  match unescapeScan s 0 false with
  | .error e => .error e
  | .ok (n, hasPlus) => if n = 0 ∧ hasPlus = false then .ok s else .ok (unescapeBuild s)

/-! ## The program -/

/-- The constant `defaultEndpoint` (line 31). -/
def defaultEndpoint : GoString := goString "https://dynamic.zoneedit.com/dyn/jsclient.php"

/-- The type `queryParam` (lines 34-41). -/
structure queryParam where
  name : GoString
  value : GoString
  defaultValue : GoString
  flagName : GoString
  envName : GoString
  description : GoString
deriving DecidableEq

/-- The package-level table `params` (lines 44-57); `value` starts as Go's zero value. -/
def params : List queryParam :=
  [ queryParam.mk (goString "rsp_ident") [] (goString "zoneedit")
      (goString "service") (goString "DYNDNS_SERVICE")
      (goString "DNS service hosting the domain"),
    queryParam.mk (goString "hostname") [] (goString "myhost.example.com")
      (goString "hostname") (goString "DYNDNS_HOSTNAME")
      (goString "fully qualified hostname to update"),
    queryParam.mk (goString "wildcard") [] (goString "NO")
      (goString "wildcard") (goString "DYNDNS_WILDCARD")
      (goString "specify YES to update the domain wildcard host") ]

/-- An HTTP request as `main` prepares it: method, URL and the basic-auth pair. -/
structure Request where
  method : GoString
  url : GoString
  basicAuth : Option (GoString × GoString)
deriving DecidableEq

/-- What `main` reads of an `http.Response`: the status code, the status line and the
result of `ioutil.ReadAll(resp.Body)` (an error text, or the body). -/
structure Response where
  StatusCode : Int
  Status : GoString
  Body : Except GoString GoString

/-- Everything the program obtains from outside. A world is a run in which `flag.Parse()`
returns; a command line the `flag` package rejects ends the program inside the library.
* `flagValue name` is the value given on the command line for the string flag `name`
  (`none` when the flag is absent), `flagS` the same for the boolean flag `-s`, and
  `nArg` is `flag.NArg()`, the number of positional arguments left after the flags;
* `lookupEnv` is the process environment;
* `printDefaults` is the text `flag.PrintDefaults()` writes to the error stream;
* `newRequest method url` is the error of `http.NewRequest(method, url, nil)`, `none`
  when the request is constructed;
* `clientDo req` is the result of `http.DefaultClient.Do(req)`: an error text or the
  response. -/
structure World where
  flagValue : GoString → Option GoString
  flagS : Option Bool
  nArg : Nat
  lookupEnv : GoString → Option GoString
  printDefaults : GoString
  newRequest : GoString → GoString → Option GoString
  clientDo : Request → Except GoString Response

/-- What the program does to the outside: the exit status, the bytes written to standard
output and to the error stream, and the requests handed to `http.DefaultClient.Do`, in
order. -/
structure Outcome where
  exitCode : Nat
  stdout : GoString
  stderr : GoString
  sent : List Request
deriving DecidableEq

/-- The function `init` (lines 64-68): `flag.StringVar(&p.value, p.flagName,
p.defaultValue, p.description)` registers each parameter and stores its default
value in `p.value`. -/
def init (ps : List queryParam) : List queryParam :=
  ps.map fun p => queryParam.mk p.name p.defaultValue p.defaultValue p.flagName p.envName
    p.description

/-- The effect of `flag.Parse()` (line 71) on the registered parameters: a flag given on
the command line overwrites the variable bound to it, the others keep their default. -/
def flagParse (w : World) (ps : List queryParam) : List queryParam :=
  ps.map fun p =>
    match w.flagValue p.flagName with
    | some v => queryParam.mk p.name v p.defaultValue p.flagName p.envName p.description
    | none => p

/-- The variable `*endpoint` after `flag.Parse()` (line 58). -/
def endpoint (w : World) : GoString := (w.flagValue (goString "endpoint")).getD defaultEndpoint

/-- The variable `*username` after `flag.Parse()` (line 59). -/
def username (w : World) : GoString := (w.flagValue (goString "uname")).getD []

/-- The variable `*password` after `flag.Parse()` (line 60). -/
def password (w : World) : GoString := (w.flagValue (goString "pword")).getD []

/-- The variable `*showResponse` after `flag.Parse()` (line 61). -/
def showResponse (w : World) : Bool := w.flagS.getD true

/-- The function `usage` (lines 127-130): what it writes to the error stream. -/
def usage (w : World) : GoString :=
  goString "usage: zoneedit-dyndns [flags] where flags are:\n" ++ w.printDefaults

/-- The loop of `main` over `params` (lines 82-99), at index `i` with the query built so
far. It stops with `(exit status, message)` at the first parameter that fails its check,
and otherwise yields the finished query. -/
def buildQuery : Nat → List queryParam → GoString → Except (Nat × GoString) GoString
  | _, [], query => .ok query
  | i, p :: rest, query =>
    let query := if i = 0 then query ++ goString "?" else query ++ goString "&"
    if p.name = goString "hostname" ∧ p.value = p.defaultValue then
      .error (4, goString "error: You must specify a hostname.\n")
    else if p.name = goString "wildcard" ∧ p.value ≠ goString "YES"
        ∧ p.value ≠ goString "NO" then
      .error (5, goString "error: wildcard must be YES or NO.\n")
    else buildQuery (i + 1) rest (query ++ p.name ++ goString "=" ++ QueryEscape p.value)

/-- The function `main` (lines 70-125). -/
def main (w : World) : Outcome :=
  let ps := flagParse w (init params)
  if w.nArg > 0 then
    Outcome.mk 2 [] (usage w) []
  else if username w = [] ∨ password w = [] then
    Outcome.mk 3 []
      (goString "error: You must specify a username and password.\n" ++ usage w) []
  else
    match buildQuery 0 ps [] with
    | .error (code, msg) => Outcome.mk code [] (msg ++ usage w) []
    | .ok query =>
      match w.newRequest (goString "GET") (endpoint w ++ query) with
      | some err =>
        Outcome.mk 6 []
          (goString "error: request construction failed: " ++ err ++ goString "\n") []
      | none =>
        let req := Request.mk (goString "GET") (endpoint w ++ query)
          (some (username w, password w))
        match w.clientDo req with
        | .error err =>
          Outcome.mk 7 [] (goString "error: request failed: " ++ err ++ goString "\n") [req]
        | .ok resp =>
          match resp.Body with
          | .error err =>
            Outcome.mk 8 []
              (goString "error: couldn't read response body: " ++ err ++ goString "\n") [req]
          | .ok body =>
            if resp.StatusCode ≠ 200 then
              Outcome.mk 9 []
                (goString "error: response status was: " ++ resp.Status ++ goString "\n"
                  ++ (goString "\tresponse body was: " ++ body ++ goString "\n")) [req]
            else if showResponse w then
              Outcome.mk 0 (body ++ goString "\n") [] [req]
            else
              Outcome.mk 0 [] [] [req]

/-! ## The resolved parameters -/

/-- The value a parameter list holds for the parameter registered under `flagName`. -/
def valueOf (flagName : GoString) (ps : List queryParam) : GoString :=
  match ps.find? (fun p => p.flagName = flagName) with
  | some p => p.value
  | none => []

/-- The service value `main` works with: `p.value` of the `-service` parameter after
`init` and `flag.Parse()`. -/
def service (w : World) : GoString := valueOf (goString "service") (flagParse w (init params))

/-- The hostname value `main` works with. -/
def hostname (w : World) : GoString := valueOf (goString "hostname") (flagParse w (init params))

/-- The wildcard value `main` works with. -/
def wildcard (w : World) : GoString := valueOf (goString "wildcard") (flagParse w (init params))

/-! ## The specification's vocabulary -/

/-- The query string as the specification writes it (§4.3, §6): the three keys in their
declaration order, each followed by `=` and its escaped value, joined by `&` and
prefixed by `?`. -/
def queryString (s h wc : GoString) : GoString :=
  goString "?rsp_ident=" ++ QueryEscape s ++ goString "&hostname=" ++ QueryEscape h
    ++ goString "&wildcard=" ++ QueryEscape wc

/-- The request `main` hands to the HTTP client when validation passes. -/
def request (w : World) : Request :=
  Request.mk (goString "GET")
    (endpoint w ++ queryString (service w) (hostname w) (wildcard w))
    (some (username w, password w))

/-- The requests a run puts on the network. `main` only calls `http.DefaultClient.Do`
(line 106); what one such call sends is the business of the client, which is outside the
source: `wire req` lists the requests the client puts on the network for the call
`Do(req)` (several when it follows redirects, none when it fails before any network
I/O). The run's network requests are those of its calls of `Do`, in order. -/
def networkRequests (wire : Request → List Request) (w : World) : List Request :=
  (main w).sent.flatMap wire

/-- A run that passes validation, as the specification lists the checks (§4.2, §6): no
positional arguments, username and password non-empty, a hostname different from the
built-in default, and a wildcard that is `YES` or `NO`. -/
def Valid (w : World) : Prop :=
  w.nArg = 0 ∧ username w ≠ [] ∧ password w ≠ [] ∧ hostname w ≠ goString "myhost.example.com"
    ∧ (wildcard w = goString "YES" ∨ wildcard w = goString "NO")

/-- Validity of a run is decidable: it is a conjunction of comparisons of byte strings. -/
instance (w : World) : Decidable (Valid w) := by
  unfold Valid
  infer_instance

/-- An unreserved byte: an ASCII letter, a digit, or one of `-`, `_`, `.`, `~`. -/
def isUnreserved (b : Byte) : Bool :=
  (decide (byteOf 'a' ≤ b) && decide (b ≤ byteOf 'z'))
    || (decide (byteOf 'A' ≤ b) && decide (b ≤ byteOf 'Z'))
    || (decide (byteOf '0' ≤ b) && decide (b ≤ byteOf '9'))
    || decide (b = byteOf '-') || decide (b = byteOf '_') || decide (b = byteOf '.')
    || decide (b = byteOf '~')

/-- The hexadecimal digit (upper case) of a value below sixteen. -/
def hexDigit (n : Nat) : Byte :=
  if n < 10 then ⟨((byteOf '0').val + n) % 256, Nat.mod_lt _ (by decide)⟩
  else ⟨((byteOf 'A').val + (n - 10)) % 256, Nat.mod_lt _ (by decide)⟩

/-- The escaping of one byte as the specification words it: an unreserved byte passes
through, a space becomes `+`, any other byte becomes `%` and the two hexadecimal digits
of its value. -/
def specEscapeByte (c : Byte) : GoString :=
  if isUnreserved c then [c]
  else if c = byteOf ' ' then [byteOf '+']
  else [byteOf '%', hexDigit (c.val / 16), hexDigit (c.val % 16)]

/-! ## Concrete runs -/

/-- Look a name up in a list of `(name, value)` pairs written as string constants. -/
def lookup (l : List (String × String)) (k : GoString) : Option GoString :=
  (l.find? fun p => goString p.1 = k).map fun p => goString p.2

/-- A concrete world: the string flags given on the command line, the environment, the
`-s` flag, and the answer of the HTTP client; no positional arguments, every URL
accepted by `http.NewRequest`, and `usage text` printed by `flag.PrintDefaults()`. -/
def worldOf (flags env : List (String × String)) (s : Option Bool)
    (answer : Except GoString Response) : World :=
  World.mk (lookup flags) s 0 (lookup env) (goString "usage text") (fun _ _ => none)
    (fun _ => answer)

/-- The answer `200 OK` with body `OK`. -/
def answerOK : Except GoString Response :=
  .ok (Response.mk 200 (goString "200 OK") (.ok (goString "OK")))

/-- The answer `401 Unauthorized` with body `bad auth`. -/
def answer401 : Except GoString Response :=
  .ok (Response.mk 401 (goString "401 Unauthorized") (.ok (goString "bad auth")))

/-- Service left at its default, hostname `my host.example.org`, wildcard `NO`. -/
def worldSpaceInHostname : World :=
  worldOf [("uname", "u"), ("pword", "p"), ("hostname", "my host.example.org"),
    ("wildcard", "NO")] [] none answerOK

/-- No password, the hostname left at its default and a wildcard that is not accepted. -/
def worldNoPassword : World :=
  worldOf [("uname", "u"), ("wildcard", "maybe")] [] none answerOK

/-- The default hostname passed explicitly, with a wildcard that is not accepted. -/
def worldDefaultHostname : World :=
  worldOf [("uname", "u"), ("pword", "p"), ("hostname", "myhost.example.com"),
    ("wildcard", "maybe")] [] none answerOK

/-- A lower-case wildcard. -/
def worldLowercaseWildcard : World :=
  worldOf [("uname", "u"), ("pword", "p"), ("hostname", "home.example.org"),
    ("wildcard", "yes")] [] none answerOK

/-- No `-hostname` flag, and `DYNDNS_HOSTNAME=home.example.org` in the environment. -/
def worldEnvHostname : World :=
  worldOf [("uname", "u"), ("pword", "p")] [("DYNDNS_HOSTNAME", "home.example.org")] none
    answerOK

/-- A valid run with show-response switched off that is answered `401` with body
`bad auth`. -/
def world401 : World :=
  worldOf [("uname", "u"), ("pword", "p"), ("hostname", "home.example.org")] []
    (some false) answer401

/-- A valid run with show-response left at its default (enabled), answered `200` with
body `OK`. -/
def world200 : World :=
  worldOf [("uname", "u"), ("pword", "p"), ("hostname", "home.example.org")] [] none
    answerOK

/-- A valid run with `-s=true` given explicitly, answered `200` with body `OK`. -/
def world200Shown : World :=
  worldOf [("uname", "u"), ("pword", "p"), ("hostname", "home.example.org")] []
    (some true) answerOK

/-- An explicitly empty hostname, `-hostname=""`; the client fails to connect. -/
def worldEmptyHostname : World :=
  worldOf [("uname", "u"), ("pword", "p"), ("hostname", "")] [] none
    (.error (goString "connection refused"))

/-- A valid run whose one call of the client is answered `200` with body `OK` after a
redirect. -/
def worldRedirect : World :=
  worldOf [("uname", "u"), ("pword", "p"), ("hostname", "home.example.org")] [] none
    answerOK

/-- A client that meets a `302` on the first request and follows it: the request it was
given, then a second `GET` to the location of the redirect. -/
def wireRedirect (req : Request) : List Request :=
  [req, Request.mk (goString "GET") (goString "https://elsewhere.example.net/update") none]

/-- A valid run with `-endpoint ftp://example.org/update`: `http.NewRequest` accepts the
URL and the client refuses the scheme. -/
def worldFtp : World :=
  worldOf [("uname", "u"), ("pword", "p"), ("hostname", "home.example.org"),
    ("endpoint", "ftp://example.org/update")] [] none
    (.error (goString "unsupported protocol scheme"))

/-- A client that fails before any network I/O. -/
def wireNone (_ : Request) : List Request := []

/-- A hostname made of reserved characters. -/
def worldInjection : World :=
  worldOf [("uname", "u"), ("pword", "p"), ("hostname", "a&wildcard=YES?x=1")] [] none
    answerOK

/-! ## Facts about single bytes -/

set_option maxRecDepth 100000 in
/-- Each of the 256 bytes falls in one of the three cases of the escaping loop: the space,
a byte written `%XX` (whose two digits are hexadecimal and decode to the byte), or a
byte copied as it is (which is neither `%` nor `+`). -/
theorem escapeByte_cases : ∀ c : Byte,
    (c = byteOf ' ' ∧ shouldEscape c = true ∧ escapeByte c = [byteOf '+'])
    ∨ (c ≠ byteOf ' ' ∧ shouldEscape c = true
        ∧ escapeByte c = [byteOf '%', upperhexAt (c.val >>> 4), upperhexAt (c.val &&& 15)]
        ∧ ishex (upperhexAt (c.val >>> 4)) = true ∧ ishex (upperhexAt (c.val &&& 15)) = true
        ∧ ((unhex (upperhexAt (c.val >>> 4)) <<< 4) % 256
            ||| unhex (upperhexAt (c.val &&& 15))) % 256 = c.val)
    ∨ (c ≠ byteOf ' ' ∧ shouldEscape c = false ∧ escapeByte c = [c]
        ∧ c ≠ byteOf '%' ∧ c ≠ byteOf '+') := by
  decide

set_option maxRecDepth 100000 in
set_option maxHeartbeats 1000000 in
/-- On each of the 256 bytes the library's loop and the specification's wording agree. -/
theorem escapeByte_eq_spec : ∀ c : Byte, escapeByte c = specEscapeByte c := by
  decide

set_option maxRecDepth 100000 in
set_option maxHeartbeats 1000000 in
/-- The escaped form of one byte consists of unreserved bytes, `%` and `+`. -/
theorem specEscapeByte_bytes : ∀ c : Byte,
    (specEscapeByte c).all
      (fun b => isUnreserved b || decide (b = byteOf '%') || decide (b = byteOf '+')) = true := by
  decide

/-- The two facts above, for the library's `escapeByte`. -/
theorem escapeByte_spec (c : Byte) :
    escapeByte c = specEscapeByte c
      ∧ ∀ b ∈ escapeByte c, isUnreserved b = true ∨ b = byteOf '%' ∨ b = byteOf '+' := by
  refine ⟨escapeByte_eq_spec c, fun b hb => ?_⟩
  rw [escapeByte_eq_spec] at hb
  have h := List.all_eq_true.mp (specEscapeByte_bytes c) b hb
  simpa [Bool.or_eq_true, or_assoc] using h

/-! ## The escaping is a byte-by-byte rewriting -/

/-- Rewriting every byte to one byte is a `map`. -/
theorem flatMap_eq_map_of_singleton (f : Byte → GoString) (g : Byte → Byte) :
    ∀ s : GoString, (∀ c ∈ s, f c = [g c]) → s.flatMap f = s.map g
  | [], _ => rfl
  | c :: s, h => by
    have hc : f c = [g c] := h c (List.mem_cons_self c s)
    have ih := flatMap_eq_map_of_singleton f g s
      (fun d hd => h d (List.mem_cons_of_mem c hd))
    simp [List.flatMap_cons, hc, ih]

/-- One step of the loop that counts the spaces. -/
theorem spaceCount_cons (c : Byte) (s : GoString) :
    spaceCount (c :: s) = spaceCount s + (if c = byteOf ' ' then 1 else 0) := by
  rcases escapeByte_cases c with ⟨rfl, h, _⟩ | h | h
  · simp [spaceCount, List.countP_cons, h]
  · simp [spaceCount, List.countP_cons, h.1, h.2.1]
  · simp [spaceCount, List.countP_cons, h.1, h.2.1]

/-- One step of the loop that counts the bytes to write as `%XX`. -/
theorem hexCount_cons (c : Byte) (s : GoString) :
    hexCount (c :: s) =
      hexCount s + (if c ≠ byteOf ' ' ∧ shouldEscape c = true then 1 else 0) := by
  rcases escapeByte_cases c with ⟨rfl, h, _⟩ | h | h
  · simp [hexCount, List.countP_cons, h]
  · simp [hexCount, List.countP_cons, h.1, h.2.1]
  · simp [hexCount, List.countP_cons, h.1, h.2.1]

/-- When no byte needs `%XX`, escaping a byte only turns a space into `+`. -/
theorem escapeByte_of_hexCount_zero :
    ∀ s : GoString, hexCount s = 0 →
      ∀ c ∈ s, escapeByte c = [if c = byteOf ' ' then byteOf '+' else c]
  | [], _, c, hc => by simp at hc
  | d :: s, h, c, hc => by
    rw [hexCount_cons] at h
    rcases List.mem_cons.mp hc with rfl | hc
    · rcases escapeByte_cases c with ⟨rfl, _, k⟩ | k | k
      · simp [k]
      · simp [k.1, k.2.1] at h
      · simp [k.1, k.2.2.1]
    · exact escapeByte_of_hexCount_zero s (by omega) c hc

/-- When the space count is zero, the string has no space. -/
theorem ne_space_of_spaceCount_zero :
    ∀ s : GoString, spaceCount s = 0 → ∀ c ∈ s, c ≠ byteOf ' '
  | [], _, c, hc => by simp at hc
  | d :: s, h, c, hc => by
    rw [spaceCount_cons] at h
    rcases List.mem_cons.mp hc with rfl | hc
    · intro hsp
      simp [hsp] at h
    · exact ne_space_of_spaceCount_zero s (by omega) c hc

/-- The three branches of `QueryEscape` agree with rewriting every byte by
`escapeByte`. -/
theorem QueryEscape_eq_flatMap (s : GoString) : QueryEscape s = s.flatMap escapeByte := by
  unfold QueryEscape
  by_cases hh : hexCount s = 0
  · have hmap := flatMap_eq_map_of_singleton escapeByte
      (fun c => if c = byteOf ' ' then byteOf '+' else c) s
      (escapeByte_of_hexCount_zero s hh)
    by_cases hs : spaceCount s = 0
    · rw [if_pos ⟨hs, hh⟩, hmap]
      have hne := ne_space_of_spaceCount_zero s hs
      symm
      calc s.map (fun c => if c = byteOf ' ' then byteOf '+' else c)
          = s.map id := List.map_congr_left (fun c hc => by simp [hne c hc])
        _ = s := List.map_id s
    · rw [if_neg (fun h => hs h.1), if_pos hh, hmap]
  · rw [if_neg (fun h => hh h.2), if_neg hh]

/-- The escaped form is the byte-by-byte rewriting the specification describes. -/
theorem QueryEscape_eq_spec (v : GoString) : QueryEscape v = v.flatMap specEscapeByte := by
  rw [QueryEscape_eq_flatMap]
  congr 1
  funext c
  exact (escapeByte_spec c).1

/-- Every byte of an escaped value is unreserved, `%` or `+`. -/
theorem QueryEscape_bytes (v : GoString) :
    ∀ b ∈ QueryEscape v, isUnreserved b = true ∨ b = byteOf '%' ∨ b = byteOf '+' := by
  intro b hb
  rw [QueryEscape_eq_flatMap, List.mem_flatMap] at hb
  obtain ⟨c, _, hc⟩ := hb
  exact (escapeByte_spec c).2 b hc

/-- A byte that is neither unreserved nor `%` nor `+` does not occur in an escaped
value. -/
theorem count_QueryEscape (b : Byte) (h1 : isUnreserved b = false) (h2 : b ≠ byteOf '%')
    (h3 : b ≠ byteOf '+') (v : GoString) : (QueryEscape v).count b = 0 := by
  rw [List.count_eq_zero]
  intro hb
  rcases QueryEscape_bytes v b hb with h | h | h
  · rw [h1] at h
    exact Bool.false_ne_true h
  · exact h2 h
  · exact h3 h

/-! ## Decoding undoes the escaping -/

/-- The checking loop passes over the escaped form of one byte. -/
theorem unescapeScan_escapeByte (c : Byte) (rest : GoString) (n : Nat) (hasPlus : Bool) :
    unescapeScan (escapeByte c ++ rest) n hasPlus =
      unescapeScan rest (n + (if c ≠ byteOf ' ' ∧ shouldEscape c = true then 1 else 0))
        (hasPlus || decide (c = byteOf ' ')) := by
  rcases escapeByte_cases c with ⟨rfl, _, h⟩ | h | h
  · have h1 : byteOf '+' ≠ byteOf '%' := by decide
    rw [h, List.singleton_append, unescapeScan.eq_def]
    simp [h1]
  · simp [h.2.2.1, h.1, h.2.1, unescapeScan, h.2.2.2.1, h.2.2.2.2.1]
  · rw [h.2.2.1, List.singleton_append, unescapeScan.eq_def]
    simp [h.1, h.2.1, h.2.2.2.1, h.2.2.2.2]

/-- The checking loop accepts every escaped value, with the counts of the escaping. -/
theorem unescapeScan_flatMap : ∀ (s : GoString) (n : Nat) (hasPlus : Bool),
    unescapeScan (s.flatMap escapeByte) n hasPlus =
      .ok (n + hexCount s, hasPlus || decide (0 < spaceCount s))
  | [], n, hasPlus => by simp [unescapeScan, hexCount, spaceCount]
  | c :: s, n, hasPlus => by
    rw [List.flatMap_cons, unescapeScan_escapeByte, unescapeScan_flatMap s, hexCount_cons,
      spaceCount_cons]
    by_cases hc : c = byteOf ' ' <;> by_cases he : shouldEscape c = true <;>
      simp [hc, he]
    all_goals omega

/-- The decoding loop turns the escaped form of one byte back into the byte. -/
theorem unescapeBuild_escapeByte (c : Byte) (rest : GoString) :
    unescapeBuild (escapeByte c ++ rest) = c :: unescapeBuild rest := by
  rcases escapeByte_cases c with ⟨rfl, _, h⟩ | h | h
  · have h1 : byteOf '+' ≠ byteOf '%' := by decide
    rw [h, List.singleton_append, unescapeBuild.eq_def]
    simp [h1]
  · simp [h.2.2.1, unescapeBuild]
    exact Fin.ext h.2.2.2.2.2
  · rw [h.2.2.1, List.singleton_append, unescapeBuild.eq_def]
    simp [h.2.2.2.1, h.2.2.2.2]

/-- The decoding loop turns an escaped value back into the value. -/
theorem unescapeBuild_flatMap : ∀ s : GoString, unescapeBuild (s.flatMap escapeByte) = s
  | [] => by simp [unescapeBuild]
  | c :: s => by
    rw [List.flatMap_cons, unescapeBuild_escapeByte, unescapeBuild_flatMap s]

/-- A value with nothing to escape is its own escaped form. -/
theorem flatMap_escapeByte_of_nothing_to_escape (s : GoString)
    (hh : hexCount s = 0) (hs : spaceCount s = 0) : s.flatMap escapeByte = s := by
  have h := QueryEscape_eq_flatMap s
  rw [QueryEscape, if_pos ⟨hs, hh⟩] at h
  exact h.symm

/-- Unescaping an escaped value succeeds and gives the value back. -/
theorem QueryUnescape_QueryEscape (v : GoString) :
    QueryUnescape (QueryEscape v) = .ok v := by
  rw [QueryEscape_eq_flatMap, QueryUnescape, unescapeScan_flatMap]
  by_cases h : hexCount v = 0 ∧ spaceCount v = 0
  · simp [h.1, h.2, flatMap_escapeByte_of_nothing_to_escape v h.1 h.2]
  · have : ¬ (0 + hexCount v = 0 ∧ (false || decide (0 < spaceCount v)) = false) := by
      intro k
      apply h
      simp at k
      omega
    simp only [this, if_false, unescapeBuild_flatMap]

/-! ## The loop of `main` on the resolved parameters -/

/-- The service value is the `-service` flag when given, else `zoneedit`. -/
theorem service_eq (w : World) :
    service w = (w.flagValue (goString "service")).getD (goString "zoneedit") := by
  have h1 : goString "hostname" ≠ goString "service" := by decide
  have h2 : goString "wildcard" ≠ goString "service" := by decide
  cases hs : w.flagValue (goString "service") <;>
    simp [service, valueOf, flagParse, init, params, hs, h1, h2]

/-- The hostname value is the `-hostname` flag when given, else `myhost.example.com`. -/
theorem hostname_eq (w : World) :
    hostname w = (w.flagValue (goString "hostname")).getD (goString "myhost.example.com") := by
  have h1 : goString "service" ≠ goString "hostname" := by decide
  have h2 : goString "wildcard" ≠ goString "hostname" := by decide
  cases hs : w.flagValue (goString "service") <;>
  cases hh : w.flagValue (goString "hostname") <;>
    simp [hostname, valueOf, flagParse, init, params, hs, hh, h1, h2]

/-- The wildcard value is the `-wildcard` flag when given, else `NO`. -/
theorem wildcard_eq (w : World) :
    wildcard w = (w.flagValue (goString "wildcard")).getD (goString "NO") := by
  have h1 : goString "service" ≠ goString "wildcard" := by decide
  have h2 : goString "hostname" ≠ goString "wildcard" := by decide
  cases hs : w.flagValue (goString "service") <;>
  cases hh : w.flagValue (goString "hostname") <;>
  cases hw : w.flagValue (goString "wildcard") <;>
    simp [wildcard, valueOf, flagParse, init, params, hs, hh, hw, h1, h2]

/-- The parameter table after `init` and `flag.Parse()`. -/
theorem resolved_eq (w : World) :
    flagParse w (init params) =
      [ queryParam.mk (goString "rsp_ident") (service w) (goString "zoneedit")
          (goString "service") (goString "DYNDNS_SERVICE")
          (goString "DNS service hosting the domain"),
        queryParam.mk (goString "hostname") (hostname w) (goString "myhost.example.com")
          (goString "hostname") (goString "DYNDNS_HOSTNAME")
          (goString "fully qualified hostname to update"),
        queryParam.mk (goString "wildcard") (wildcard w) (goString "NO")
          (goString "wildcard") (goString "DYNDNS_WILDCARD")
          (goString "specify YES to update the domain wildcard host") ] := by
  rw [service_eq, hostname_eq, wildcard_eq]
  cases hs : w.flagValue (goString "service") <;>
  cases hh : w.flagValue (goString "hostname") <;>
  cases hw : w.flagValue (goString "wildcard") <;>
    simp [flagParse, init, params, hs, hh, hw]

/-- The loop of `main` on the resolved parameters: the hostname check, then the wildcard
check, then the finished query. -/
theorem buildQuery_resolved (w : World) :
    buildQuery 0 (flagParse w (init params)) [] =
      if hostname w = goString "myhost.example.com" then
        .error (4, goString "error: You must specify a hostname.\n")
      else if wildcard w ≠ goString "YES" ∧ wildcard w ≠ goString "NO" then
        .error (5, goString "error: wildcard must be YES or NO.\n")
      else .ok (queryString (service w) (hostname w) (wildcard w)) := by
  have n1 : goString "rsp_ident" ≠ goString "hostname" := by decide
  have n2 : goString "rsp_ident" ≠ goString "wildcard" := by decide
  have n3 : goString "hostname" ≠ goString "wildcard" := by decide
  have e1 : goString "?rsp_ident=" = goString "?" ++ (goString "rsp_ident" ++ goString "=") := by
    decide
  have e2 : goString "&hostname=" = goString "&" ++ (goString "hostname" ++ goString "=") := by
    decide
  have e3 : goString "&wildcard=" = goString "&" ++ (goString "wildcard" ++ goString "=") := by
    decide
  rw [resolved_eq]
  by_cases hh : hostname w = goString "myhost.example.com"
  · simp [buildQuery, n1, n2, hh]
  · by_cases hw : wildcard w ≠ goString "YES" ∧ wildcard w ≠ goString "NO"
    · simp [buildQuery, n1, n2, n3, hh, hw]
    · simp only [buildQuery, n1, n2, n3, n3.symm, hh, hw, false_and, if_false, and_false, if_true,
        queryString, e1, e2, e3, List.append_assoc, List.nil_append, Nat.zero_add,
        Nat.add_eq_zero, one_ne_zero, true_and, ite_true, ite_false, OfNat.ofNat_ne_zero,
        Nat.succ_ne_zero, not_false_eq_true, ne_eq, reduceCtorEq]

/-- On a run that passes validation the loop yields the query string. -/
theorem buildQuery_of_valid (w : World) (hv : Valid w) :
    buildQuery 0 (flagParse w (init params)) [] =
      .ok (queryString (service w) (hostname w) (wildcard w)) := by
  obtain ⟨_, _, _, hh, hw⟩ := hv
  rw [buildQuery_resolved, if_neg hh, if_neg]
  rintro ⟨h1, h2⟩
  rcases hw with hw | hw
  · exact h1 hw
  · exact h2 hw

/-- The query string has one `?`, in front, two `&` and three `=`. -/
theorem queryString_shape (s h wc : GoString) :
    (queryString s h wc).head? = some (byteOf '?')
      ∧ (queryString s h wc).count (byteOf '?') = 1
      ∧ (queryString s h wc).count (byteOf '&') = 2
      ∧ (queryString s h wc).count (byteOf '=') = 3 := by
  have q := count_QueryEscape (byteOf '?') (by decide) (by decide) (by decide)
  have a := count_QueryEscape (byteOf '&') (by decide) (by decide) (by decide)
  have e := count_QueryEscape (byteOf '=') (by decide) (by decide) (by decide)
  have q1 : (goString "?rsp_ident=").count (byteOf '?') = 1 := by decide
  have q2 : (goString "&hostname=").count (byteOf '?') = 0 := by decide
  have q3 : (goString "&wildcard=").count (byteOf '?') = 0 := by decide
  have a1 : (goString "?rsp_ident=").count (byteOf '&') = 0 := by decide
  have a2 : (goString "&hostname=").count (byteOf '&') = 1 := by decide
  have a3 : (goString "&wildcard=").count (byteOf '&') = 1 := by decide
  have e1 : (goString "?rsp_ident=").count (byteOf '=') = 1 := by decide
  have e2 : (goString "&hostname=").count (byteOf '=') = 1 := by decide
  have e3 : (goString "&wildcard=").count (byteOf '=') = 1 := by decide
  have hd : goString "?rsp_ident=" = byteOf '?' :: goString "rsp_ident=" := by decide
  refine ⟨?_, ?_, ?_, ?_⟩
  · simp [queryString, hd]
  · simp only [queryString, List.count_append, q, q1, q2, q3]
  · simp only [queryString, List.count_append, a, a1, a2, a3]
  · simp only [queryString, List.count_append, e, e1, e2, e3]

/-! ## The runs of `main` -/

/-- A run that passes validation goes on to `http.NewRequest` with the endpoint followed
by the query string. -/
theorem main_of_valid (w : World) (hv : Valid w) :
    main w =
      match w.newRequest (goString "GET")
          (endpoint w ++ queryString (service w) (hostname w) (wildcard w)) with
      | some err =>
        Outcome.mk 6 []
          (goString "error: request construction failed: " ++ err ++ goString "\n") []
      | none =>
        match w.clientDo (request w) with
        | .error err =>
          Outcome.mk 7 [] (goString "error: request failed: " ++ err ++ goString "\n")
            [request w]
        | .ok resp =>
          match resp.Body with
          | .error err =>
            Outcome.mk 8 []
              (goString "error: couldn't read response body: " ++ err ++ goString "\n")
              [request w]
          | .ok body =>
            if resp.StatusCode ≠ 200 then
              Outcome.mk 9 []
                (goString "error: response status was: " ++ resp.Status ++ goString "\n"
                  ++ (goString "\tresponse body was: " ++ body ++ goString "\n"))
                [request w]
            else if showResponse w then
              Outcome.mk 0 (body ++ goString "\n") [] [request w]
            else
              Outcome.mk 0 [] [] [request w] := by
  have hq := buildQuery_of_valid w hv
  obtain ⟨h0, hu, hp, _, _⟩ := hv
  simp only [main, h0, hq, request, gt_iff_lt, lt_irrefl, if_false, hu, hp, or_self]

/-- A run that fails validation stops with status 2, 3, 4 or 5 before any request. -/
theorem main_of_not_valid (w : World) (hv : ¬ Valid w) :
    (main w).sent = [] ∧ ((main w).exitCode = 2 ∨ (main w).exitCode = 3
      ∨ (main w).exitCode = 4 ∨ (main w).exitCode = 5) := by
  unfold main
  by_cases h0 : w.nArg > 0
  · simp [h0]
  · by_cases hc : username w = [] ∨ password w = []
    · simp [h0, hc]
    · simp only [h0, hc, if_false, buildQuery_resolved]
      by_cases hh : hostname w = goString "myhost.example.com"
      · simp [hh]
      · by_cases hw : wildcard w ≠ goString "YES" ∧ wildcard w ≠ goString "NO"
        · simp [hh, hw]
        · exfalso
          apply hv
          refine ⟨by omega, fun h => hc (Or.inl h), fun h => hc (Or.inr h), hh, ?_⟩
          by_contra hcon
          exact hw ⟨fun h => hcon (Or.inl h), fun h => hcon (Or.inr h)⟩

/-- The requests of a run that passes validation: the one prepared request when
`http.NewRequest` accepts the URL, none otherwise. -/
theorem sent_of_valid (w : World) (hv : Valid w) :
    (main w).sent =
      if w.newRequest (goString "GET")
          (endpoint w ++ queryString (service w) (hostname w) (wildcard w)) = none
      then [request w] else [] := by
  rw [main_of_valid w hv]
  cases hn : w.newRequest (goString "GET")
      (endpoint w ++ queryString (service w) (hostname w) (wildcard w)) with
  | some err => simp
  | none =>
    cases hd : w.clientDo (request w) with
    | error err => simp
    | ok resp =>
      cases hb : resp.Body with
      | error err => simp [hb]
      | ok body =>
        by_cases hs : resp.StatusCode = 200 <;> by_cases hshow : showResponse w = true <;>
          simp [hb, hs, hshow]

/-! ## The claims -/

/-- Claim C1: for every service, hostname and wildcard value that passes the two checks
of the loop (hostname different from `myhost.example.com`, wildcard `YES` or `NO`), the
loop of `main` finishes and the query string it builds is exactly
`?rsp_ident=` esc(service) `&hostname=` esc(hostname) `&wildcard=` esc(wildcard): the
three declared keys, each once, in declaration order. -/
theorem query_string_exact (w : World)
    (hh : hostname w ≠ goString "myhost.example.com")
    (hw : wildcard w = goString "YES" ∨ wildcard w = goString "NO") :
    buildQuery 0 (flagParse w (init params)) [] =
      .ok (goString "?rsp_ident=" ++ QueryEscape (service w) ++ goString "&hostname="
        ++ QueryEscape (hostname w) ++ goString "&wildcard=" ++ QueryEscape (wildcard w)) := by
  rw [buildQuery_resolved, if_neg hh, if_neg]
  · rfl
  · rintro ⟨h1, h2⟩
    rcases hw with hw | hw
    · exact h1 hw
    · exact h2 hw

/-- Witness of C1: service `zoneedit`, hostname `my host.example.org`, wildcard `NO`
give `?rsp_ident=zoneedit&hostname=my+host.example.org&wildcard=NO`. -/
theorem query_string_exact_witness :
    service worldSpaceInHostname = goString "zoneedit"
      ∧ hostname worldSpaceInHostname = goString "my host.example.org"
      ∧ wildcard worldSpaceInHostname = goString "NO"
      ∧ buildQuery 0 (flagParse worldSpaceInHostname (init params)) [] =
          .ok (goString "?rsp_ident=zoneedit&hostname=my+host.example.org&wildcard=NO") :=
  ⟨by decide, by decide, by decide,
    (query_string_exact worldSpaceInHostname (by decide) (Or.inr (by decide))).trans
      (congrArg Except.ok (by decide))⟩

/-- Claim C2: round trip of the value encoding: for every byte string `v`,
query-unescaping the query-escaped form of `v` succeeds and returns exactly `v`. -/
theorem query_escape_round_trip (v : GoString) : QueryUnescape (QueryEscape v) = .ok v :=
  QueryUnescape_QueryEscape v

/-- Claim C3: with no positional arguments and an empty username or an empty password,
the program exits with status 3 and hands no request to the HTTP client, whatever the
other values are. -/
theorem missing_credentials_exit_3 (w : World) (h0 : w.nArg = 0)
    (hc : username w = [] ∨ password w = []) :
    (main w).exitCode = 3 ∧ (main w).sent = [] := by
  simp [main, h0, hc]

/-- Witness of C3: no password, a default hostname and a wildcard that is not accepted. -/
theorem missing_credentials_exit_3_witness :
    worldNoPassword.nArg = 0 ∧ password worldNoPassword = []
      ∧ hostname worldNoPassword = goString "myhost.example.com"
      ∧ wildcard worldNoPassword = goString "maybe"
      ∧ (main worldNoPassword).exitCode = 3 ∧ (main worldNoPassword).sent = [] :=
  ⟨by decide, by decide, by decide, by decide,
    missing_credentials_exit_3 worldNoPassword (by decide) (Or.inr (by decide))⟩

/-- Claim C4: with no positional arguments, a non-empty username and password, and a
hostname value equal to `myhost.example.com` (left unset or passed explicitly), the
program exits with status 4 and hands no request to the HTTP client, whatever the
service and wildcard values are. -/
theorem default_hostname_exit_4 (w : World) (h0 : w.nArg = 0) (hu : username w ≠ [])
    (hp : password w ≠ []) (hh : hostname w = goString "myhost.example.com") :
    (main w).exitCode = 4 ∧ (main w).sent = [] := by
  simp [main, h0, hu, hp, buildQuery_resolved, hh]

/-- Witness of C4: the default hostname passed explicitly, with wildcard `maybe`. -/
theorem default_hostname_exit_4_witness :
    worldDefaultHostname.flagValue (goString "hostname") = some (goString "myhost.example.com")
      ∧ wildcard worldDefaultHostname = goString "maybe"
      ∧ (main worldDefaultHostname).exitCode = 4 ∧ (main worldDefaultHostname).sent = [] :=
  ⟨by decide, by decide,
    default_hostname_exit_4 worldDefaultHostname (by decide) (by decide) (by decide)
      (by decide)⟩

/-- Claim C5: with no positional arguments, a non-empty username and password and a
hostname different from the default, a wildcard value other than exactly `YES` or
exactly `NO` makes the program exit with status 5 and hand no request to the HTTP
client. -/
theorem invalid_wildcard_exit_5 (w : World) (h0 : w.nArg = 0) (hu : username w ≠ [])
    (hp : password w ≠ []) (hh : hostname w ≠ goString "myhost.example.com")
    (hy : wildcard w ≠ goString "YES") (hn : wildcard w ≠ goString "NO") :
    (main w).exitCode = 5 ∧ (main w).sent = [] := by
  simp [main, h0, hu, hp, buildQuery_resolved, hh, hy, hn]

/-- Witness of C5: the lower-case wildcard `yes`. -/
theorem invalid_wildcard_exit_5_witness :
    wildcard worldLowercaseWildcard = goString "yes"
      ∧ (main worldLowercaseWildcard).exitCode = 5
      ∧ (main worldLowercaseWildcard).sent = [] :=
  ⟨by decide,
    invalid_wildcard_exit_5 worldLowercaseWildcard (by decide) (by decide) (by decide)
      (by decide) (by decide) (by decide)⟩

/-- Claim C6, the code at the failing input: with no `-hostname` flag and
`DYNDNS_HOSTNAME=home.example.org` in the environment, the hostname `main` works with
is still the default `myhost.example.com`, and the run exits with status 4 without a
request. No run depends on the environment: `envName` is declared for every
parameter and never read. -/
theorem environment_not_consulted :
    worldEnvHostname.flagValue (goString "hostname") = none
      ∧ worldEnvHostname.lookupEnv (goString "DYNDNS_HOSTNAME")
          = some (goString "home.example.org")
      ∧ hostname worldEnvHostname = goString "myhost.example.com"
      ∧ (main worldEnvHostname).exitCode = 4 ∧ (main worldEnvHostname).sent = []
      ∧ (∀ (w : World) (env : GoString → Option GoString),
          main (World.mk w.flagValue w.flagS w.nArg env w.printDefaults w.newRequest
            w.clientDo) = main w) :=
  ⟨by decide, by decide, by decide, by decide, by decide, fun _ _ => rfl⟩

/-- Claim C7: when a run passes validation, its request is constructed and sent, the
response body is read, and the status code is not 200, the program exits with status 9,
writes nothing to standard output, and the error stream is the line with the response
status followed by the line with the raw response body; so it contains both. This holds
for either setting of show-response. -/
theorem non_200_exit_9 (w : World) (resp : Response) (body : GoString) (hv : Valid w)
    (hn : w.newRequest (goString "GET")
      (endpoint w ++ queryString (service w) (hostname w) (wildcard w)) = none)
    (hd : w.clientDo (request w) = .ok resp) (hb : resp.Body = .ok body)
    (hs : resp.StatusCode ≠ 200) :
    (main w).exitCode = 9 ∧ (main w).stdout = []
      ∧ (main w).stderr = goString "error: response status was: " ++ resp.Status
          ++ goString "\n" ++ (goString "\tresponse body was: " ++ body ++ goString "\n")
      ∧ resp.Status <:+: (main w).stderr ∧ body <:+: (main w).stderr
      ∧ (main w).sent = [request w] := by
  rw [main_of_valid w hv]
  simp only [hn, hd, hb, hs, ne_eq, not_false_eq_true, if_true, true_and, and_true]
  constructor
  · exact ⟨goString "error: response status was: ",
      goString "\n" ++ (goString "\tresponse body was: " ++ body ++ goString "\n"),
      by simp [List.append_assoc]⟩
  · exact ⟨goString "error: response status was: " ++ resp.Status ++ goString "\n"
      ++ goString "\tresponse body was: ", goString "\n", by simp [List.append_assoc]⟩

/-- Witness of C7: status `401 Unauthorized` with body `bad auth`, show-response off. -/
theorem non_200_exit_9_witness :
    (main world401).exitCode = 9 ∧ (main world401).stdout = []
      ∧ (main world401).stderr = goString "error: response status was: "
          ++ goString "401 Unauthorized" ++ goString "\n"
          ++ (goString "\tresponse body was: " ++ goString "bad auth" ++ goString "\n")
      ∧ goString "401 Unauthorized" <:+: (main world401).stderr
      ∧ goString "bad auth" <:+: (main world401).stderr
      ∧ (main world401).sent = [request world401] :=
  non_200_exit_9 world401 (Response.mk 401 (goString "401 Unauthorized")
    (.ok (goString "bad auth"))) (goString "bad auth") (by decide) rfl rfl rfl (by decide)

/-- Counterexample to C8 as stated: a run that passes validation, with show-response
enabled, answered `200` with body `OK`, exits with status 0 and writes `OK` and a
newline to standard output; what it writes is not the bare body `OK`. -/
theorem stdout_is_not_the_bare_body :
    Valid world200 ∧ showResponse world200 = true
      ∧ world200.clientDo (request world200)
          = .ok (Response.mk 200 (goString "200 OK") (.ok (goString "OK")))
      ∧ (main world200).exitCode = 0
      ∧ (main world200).stdout = goString "OK\n"
      ∧ (main world200).stdout ≠ goString "OK" :=
  ⟨by decide, by decide, rfl, by decide, by decide, by decide⟩

/-- Claim C8, amended: when a run passes validation, its request is constructed and
sent, and the answer has status 200 and a body that is read, the program exits with
status 0 and writes nothing to the error stream; with show-response enabled standard
output receives the raw response body followed by one newline, and with show-response
disabled it receives nothing. -/
theorem status_200_exit_0 (w : World) (resp : Response) (body : GoString) (hv : Valid w)
    (hn : w.newRequest (goString "GET")
      (endpoint w ++ queryString (service w) (hostname w) (wildcard w)) = none)
    (hd : w.clientDo (request w) = .ok resp) (hb : resp.Body = .ok body)
    (hs : resp.StatusCode = 200) :
    (main w).exitCode = 0 ∧ (main w).stderr = []
      ∧ (main w).stdout = (if showResponse w = true then body ++ goString "\n" else [])
      ∧ (main w).sent = [request w] := by
  rw [main_of_valid w hv]
  by_cases hshow : showResponse w = true <;> simp [hn, hd, hb, hs, hshow]

/-- Witness of C8 amended: body `OK` with show-response enabled prints `OK` and a
newline. -/
theorem status_200_exit_0_witness :
    showResponse world200Shown = true
      ∧ (main world200Shown).exitCode = 0 ∧ (main world200Shown).stderr = []
      ∧ (main world200Shown).stdout
          = (if showResponse world200Shown = true then goString "OK" ++ goString "\n" else [])
      ∧ (main world200Shown).sent = [request world200Shown] :=
  ⟨by decide,
    status_200_exit_0 world200Shown (Response.mk 200 (goString "200 OK")
      (.ok (goString "OK"))) (goString "OK") (by decide) rfl rfl rfl rfl⟩

/-- Counterexample to C9 as stated. In both runs all the conditions of the claim hold
(no positional arguments, credentials, a real hostname, wildcard `NO`, the request is
constructed) and `main` calls the client once. In the first the client follows a redirect
and two requests go on the network, not exactly one; in the second the client refuses
the `ftp` scheme and no request goes on the network at all. -/
theorem one_call_is_not_one_network_request :
    (Valid worldRedirect
        ∧ worldRedirect.newRequest (goString "GET")
            (endpoint worldRedirect ++ queryString (service worldRedirect)
              (hostname worldRedirect) (wildcard worldRedirect)) = none
        ∧ (main worldRedirect).sent = [request worldRedirect]
        ∧ (main worldRedirect).exitCode = 0
        ∧ (networkRequests wireRedirect worldRedirect).length = 2)
      ∧ (Valid worldFtp
        ∧ worldFtp.newRequest (goString "GET")
            (endpoint worldFtp ++ queryString (service worldFtp) (hostname worldFtp)
              (wildcard worldFtp)) = none
        ∧ (main worldFtp).sent = [request worldFtp]
        ∧ (main worldFtp).exitCode = 7
        ∧ networkRequests wireNone worldFtp = []) :=
  ⟨⟨by decide, rfl, by decide, by decide, by decide⟩,
    ⟨by decide, rfl, by decide, by decide, by decide⟩⟩

/-- Claim C9, amended: a run calls `http.DefaultClient.Do` if and only if there are no
positional arguments, username and password are non-empty, the hostname value differs
from `myhost.example.com`, the wildcard value is `YES` or `NO`, and `http.NewRequest`
accepts the endpoint followed by the query string. It then calls it exactly once, with
the prepared request, whatever the client answers: the program does not retry. The
network requests of the run are those of that one call, whatever the client makes of it,
and in every other case there is none. An explicitly empty hostname passes the hostname
check and appears in the query as `hostname=`. -/
theorem client_called_iff (w : World) :
    ((main w).sent ≠ [] ↔
        (w.nArg = 0 ∧ username w ≠ [] ∧ password w ≠ []
          ∧ hostname w ≠ goString "myhost.example.com"
          ∧ (wildcard w = goString "YES" ∨ wildcard w = goString "NO")
          ∧ w.newRequest (goString "GET")
              (endpoint w ++ queryString (service w) (hostname w) (wildcard w)) = none))
      ∧ ((main w).sent = [] ∨ (main w).sent = [request w])
      ∧ (∀ wire : Request → List Request,
          ((main w).sent ≠ [] → networkRequests wire w = wire (request w))
            ∧ ((main w).sent = [] → networkRequests wire w = []))
      ∧ (w.flagValue (goString "hostname") = some [] →
          hostname w ≠ goString "myhost.example.com"
            ∧ queryString (service w) (hostname w) (wildcard w)
                = goString "?rsp_ident=" ++ QueryEscape (service w) ++ goString "&hostname="
                    ++ goString "&wildcard=" ++ QueryEscape (wildcard w)) := by
  have hshape : (main w).sent = [] ∨ (main w).sent = [request w] := by
    by_cases hv : Valid w
    · rw [sent_of_valid w hv]
      by_cases hn : w.newRequest (goString "GET")
          (endpoint w ++ queryString (service w) (hostname w) (wildcard w)) = none
      · right
        simp [hn]
      · left
        simp [hn]
    · left
      exact (main_of_not_valid w hv).1
  refine ⟨?_, hshape, ?_, ?_⟩
  · by_cases hv : Valid w
    · rw [sent_of_valid w hv]
      obtain ⟨h0, hu, hp, hh, hw⟩ := hv
      by_cases hn : w.newRequest (goString "GET")
          (endpoint w ++ queryString (service w) (hostname w) (wildcard w)) = none
      · simp [hn, h0, hu, hp, hh, hw]
      · simp [hn]
    · rw [(main_of_not_valid w hv).1]
      constructor
      · intro h
        exact absurd rfl h
      · rintro ⟨h0, hu, hp, hh, hw, _⟩
        exact absurd ⟨h0, hu, hp, hh, hw⟩ hv
  · intro wire
    constructor
    · intro hne
      rcases hshape with h | h
      · exact absurd h hne
      · simp [networkRequests, h]
    · intro he
      simp [networkRequests, he]
  · intro he
    have hh : hostname w = [] := by rw [hostname_eq, he]; rfl
    have hq : QueryEscape ([] : GoString) = [] := by decide
    refine ⟨?_, ?_⟩
    · rw [hh]
      decide
    · rw [hh, queryString, hq, List.append_nil]

/-- Witness of C9 amended: `-hostname=""` passes validation; the one request handed to
the client carries `hostname=`, and a refused connection is not retried. -/
theorem client_called_iff_witness :
    (main worldEmptyHostname).exitCode = 7
      ∧ (main worldEmptyHostname).sent =
          [Request.mk (goString "GET")
            (goString ("https://dynamic.zoneedit.com/dyn/jsclient.php"
              ++ "?rsp_ident=zoneedit&hostname=&wildcard=NO"))
            (some (goString "u", goString "p"))]
      ∧ hostname worldEmptyHostname ≠ goString "myhost.example.com"
      ∧ queryString (service worldEmptyHostname) (hostname worldEmptyHostname)
            (wildcard worldEmptyHostname)
          = goString "?rsp_ident=" ++ QueryEscape (service worldEmptyHostname)
              ++ goString "&hostname=" ++ goString "&wildcard="
              ++ QueryEscape (wildcard worldEmptyHostname) :=
  ⟨by decide, by decide, (client_called_iff worldEmptyHostname).2.2.2 (by decide)⟩

/-- Claim C10: the escaped form of a value is the value with every unreserved byte kept,
every space turned into `+` and every other byte turned into `%` and two hexadecimal
digits, so each of its bytes is an ASCII letter, a digit, `-`, `_`, `.`, `~`, `%` or
`+`. Hence every query string the loop of `main` builds starts with its only `?` and
contains exactly two `&` and exactly three `=`. -/
theorem escaped_bytes_safe :
    (∀ v : GoString, QueryEscape v = v.flatMap specEscapeByte)
      ∧ (∀ v : GoString, ∀ b ∈ QueryEscape v,
          isUnreserved b = true ∨ b = byteOf '%' ∨ b = byteOf '+')
      ∧ (∀ (w : World) (q : GoString),
          buildQuery 0 (flagParse w (init params)) [] = .ok q →
            q.head? = some (byteOf '?') ∧ q.count (byteOf '?') = 1
              ∧ q.count (byteOf '&') = 2 ∧ q.count (byteOf '=') = 3) := by
  refine ⟨QueryEscape_eq_spec, QueryEscape_bytes, ?_⟩
  intro w q hq
  rw [buildQuery_resolved] at hq
  split at hq
  · cases hq
  · split at hq
    · cases hq
    · cases hq
      exact queryString_shape (service w) (hostname w) (wildcard w)

/-- Witness of C10: the hostname `a&wildcard=YES?x=1` is escaped to
`a%26wildcard%3DYES%3Fx%3D1`, and the query keeps one `?`, two `&` and three `=`. -/
theorem escaped_bytes_safe_witness :
    buildQuery 0 (flagParse worldInjection (init params)) []
        = .ok (goString
            "?rsp_ident=zoneedit&hostname=a%26wildcard%3DYES%3Fx%3D1&wildcard=NO")
      ∧ (goString "?rsp_ident=zoneedit&hostname=a%26wildcard%3DYES%3Fx%3D1&wildcard=NO").head?
          = some (byteOf '?')
      ∧ (goString "?rsp_ident=zoneedit&hostname=a%26wildcard%3DYES%3Fx%3D1&wildcard=NO").count
          (byteOf '?') = 1
      ∧ (goString "?rsp_ident=zoneedit&hostname=a%26wildcard%3DYES%3Fx%3D1&wildcard=NO").count
          (byteOf '&') = 2
      ∧ (goString "?rsp_ident=zoneedit&hostname=a%26wildcard%3DYES%3Fx%3D1&wildcard=NO").count
          (byteOf '=') = 3 :=
  ⟨rfl, escaped_bytes_safe.2.2 worldInjection _ rfl⟩

end ZoneEdit
